/-
Verification of the connection-pool / query-execution layer (`ksys_app/db.py`)
and the pagination display component (`ksys_app/components/alarms/pagination.py`)
of the reflex-ksys-db repository, via a shallow embedding in Lean 4.

The embedding models:
  * `_dsn`, `get_pool`, `close_pool` — the singleton pool lifecycle;
  * `q` and `execute_query` — parameter normalization, the pooled attempt,
    the `asyncio.TimeoutError`-triggered direct-connection fallback, and the
    log events each path emits;
  * a small-step interleaving semantics for concurrent `get_pool` callers
    (cooperative task scheduling with an `asyncio.Lock`);
  * the pagination display-range computation.

External effects (database I/O, wall-clock timing, exceptions raised by
asyncpg) are supplied as explicit oracle values of type `Except`, so every
control-flow decision of the Python source is represented as a `match` on an
oracle outcome, and the sequence of log calls is returned as an event trace.
-/
import Mathlib

namespace KsysDb

/-! ### Basic value model

Python exceptions are split into `asyncio.TimeoutError` — the class named by
the `except asyncio.TimeoutError` handler in `q` / `execute_query` — and all
other exceptions (caught by `except Exception`), tagged with a code so that
distinct failures are distinguishable. -/

instance {ε α : Type} [DecidableEq ε] [DecidableEq α] :
    DecidableEq (Except ε α) := fun x y =>
  match x, y with
  | .ok a, .ok b =>
    if h : a = b then .isTrue (by rw [h]) else .isFalse (by simp [h])
  | .error a, .error b =>
    if h : a = b then .isTrue (by rw [h]) else .isFalse (by simp [h])
  | .ok _, .error _ => .isFalse (by simp)
  | .error _, .ok _ => .isFalse (by simp)

inductive PyErr where
  | timeout : PyErr
  | other : Nat → PyErr
deriving DecidableEq, Repr

/-- A SQL parameter value. -/
inductive Value where
  | int : Int → Value
  | str : String → Value
deriving DecidableEq, Repr

/-- The `params` argument of `q` / `execute_query`: a tuple (positional) or a
dict (mapping, insertion-ordered as Python dicts are). -/
inductive Params where
  | pos : List Value → Params
  | map : List (String × Value) → Params
deriving DecidableEq, Repr

/-- A result row: asyncpg.Record converted to a dict (column name → value). -/
def Row := List (String × Value)
deriving DecidableEq, Repr

/-- Model of `db.py` lines 75-78 / 133-134: `if isinstance(params, dict): params =
tuple(params.values()) if params else ()`.  A dict's `.values()` iterates in
insertion order; an empty dict yields the empty tuple. -/
def normalizeParams : Params → Params
  | .pos vs => .pos vs
  | .map pairs => .pos (pairs.map Prod.snd)

/-- Python star-unpacking `*params` at a call site: a tuple contributes its
elements; a dict contributes its KEYS (iteration over a dict yields keys). -/
def starArgs : Params → List Value
  | .pos vs => vs
  | .map pairs => pairs.map (fun kv => Value.str kv.fst)

/-! ### Event trace

One constructor per observable action of `q` / `execute_query`: the pooled
fetch/execute call with its positional arguments, each log call, and the
direct-connection attempt of the fallback path. -/

inductive Event where
  /-- pooled `conn.fetch(sql, *params, timeout=timeout)` (or `conn.execute`). -/
  | fetchCall : List Value → Event
  /-- Log call `logger.warning(f"Slow query ...")` — the slow-query entry. -/
  | slowWarn : Event
  /-- Log call `logger.debug(f"Query completed ...")`. -/
  | debugLog : Event
  /-- Log call `logger.warning(f"Pool timeout, using direct connection ...")`. -/
  | poolTimeoutWarn : Event
  /-- the `asyncpg.connect(_dsn())` direct-connection attempt. -/
  | directAttempt : Event
  /-- fallback `conn.fetch(sql, *params, timeout=timeout)` on the direct
  connection (or `conn.execute`). -/
  | directCall : List Value → Event
  /-- Log call `logger.info(f"Direct connection query completed ...")`. -/
  | directInfo : Event
  /-- Log call `logger.error(f"Direct connection also failed ...")`. -/
  | directFailLog : Event
  /-- Log call `logger.error(f"Query execution failed ...")` + SQL + params logs. -/
  | queryFailLog : Event
deriving DecidableEq, Repr

/-! ### Oracle environment for one call to `q` / `execute_query`

Each field fixes the outcome of one awaited external operation, and the
measured elapsed times. -/

structure QEnv where
  /-- outcome of `await get_pool()` (line 72/130); `asyncpg.create_pool` can
  itself raise `asyncio.TimeoutError` while establishing connections. -/
  poolRes : Except PyErr Unit
  /-- outcome of `pool.acquire()` (line 81/137); raises
  `asyncio.TimeoutError` on pool exhaustion. -/
  acquireRes : Except PyErr Unit
  /-- outcome of the pooled `conn.fetch` (line 83) / `conn.execute`
  (line 138); raises `asyncio.TimeoutError` on command timeout. -/
  fetchRes : Except PyErr (List Row)
  /-- elapsed milliseconds measured after the pooled call (line 89/141). -/
  elapsedMs : Nat
  /-- whether `logger.isEnabledFor(logging.DEBUG)` (line 92/144). -/
  debugEnabled : Bool
  /-- outcome of `asyncpg.connect(_dsn())` in the fallback (line 102/152);
  an unset DSN raises here as well. -/
  connectRes : Except PyErr Unit
  /-- outcome of the fallback `conn.fetch` (line 104) / `conn.execute`
  (line 154). -/
  directFetchRes : Except PyErr (List Row)
  /-- elapsed milliseconds measured after the fallback call (line 107/156). -/
  elapsedDirectMs : Nat

/-- Model of `db.py` lines 101-115: the body of the `except asyncio.TimeoutError`
handler.  `args` is the star-unpacking of `params` AS IT IS BOUND at the time
the handler runs.  The inner `try/finally` closes the direct connection on
every exit path; `except Exception as e2` logs and re-raises `e2` itself. -/
def qFallback (env : QEnv) (args : List Value) :
    Except PyErr (List Row) × List Event :=
  match env.connectRes with
  | .error e => (.error e, [Event.directAttempt, Event.directFailLog])
  | .ok _ =>
    match env.directFetchRes with
    | .error e =>
      (.error e, [Event.directAttempt, Event.directCall args,
        Event.directFailLog])
    | .ok rows =>
      (.ok rows, [Event.directAttempt, Event.directCall args,
        Event.directInfo])

/-- Model of `db.py` lines 71-95: the body of the outer `try` of `q`.  Returns the
outcome, the events emitted inside the `try`, and the value of the local
variable `params` at the point the body exited (normalization at line 78
rebinds it only after `get_pool()` has returned). -/
def qTryBody (env : QEnv) (params : Params) :
    Except PyErr (List Row) × List Event × Params :=
  match env.poolRes with
  | .error e => (.error e, [], params)
  | .ok _ =>
    let params := normalizeParams params
    match env.acquireRes with
    | .error e => (.error e, [], params)
    | .ok _ =>
      match env.fetchRes with
      | .error e => (.error e, [Event.fetchCall (starArgs params)], params)
      | .ok rows =>
        let logEv :=
          if env.elapsedMs > 1000 then [Event.slowWarn]
          else if env.debugEnabled then [Event.debugLog] else []
        (.ok rows, [Event.fetchCall (starArgs params)] ++ logEv, params)

/-- Model of `db.py` lines 66-121: `async def q(sql, params=(), timeout=30.0)`.
A `TimeoutError` escaping the `try` body enters the fallback handler
(lines 97-115); any other exception is logged and re-raised (lines 117-121).
An exception raised inside the `except asyncio.TimeoutError` handler is NOT
caught by the sibling `except Exception` clause. -/
def qRun (env : QEnv) (sql : String) (params : Params) :
    Except PyErr (List Row) × List Event :=
  match qTryBody env params with
  | (.ok rows, evs, _) => (.ok rows, evs)
  | (.error PyErr.timeout, evs, params') =>
    let fb := qFallback env (starArgs params')
    (fb.1, evs ++ [Event.poolTimeoutWarn] ++ fb.2)
  | (.error (PyErr.other c), evs, _) =>
    (.error (.other c), evs ++ [Event.queryFailLog])

/-- Model of `db.py` lines 151-163: the `except asyncio.TimeoutError` handler body of
`execute_query` (no rows are fetched or returned). -/
def executeFallback (env : QEnv) (args : List Value) :
    Except PyErr Unit × List Event :=
  match env.connectRes with
  | .error e => (.error e, [Event.directAttempt, Event.directFailLog])
  | .ok _ =>
    match env.directFetchRes with
    | .error e =>
      (.error e, [Event.directAttempt, Event.directCall args,
        Event.directFailLog])
    | .ok _ =>
      (.ok (), [Event.directAttempt, Event.directCall args,
        Event.directInfo])

/-- Model of `db.py` lines 129-145: the body of the outer `try` of `execute_query`. -/
def executeTryBody (env : QEnv) (params : Params) :
    Except PyErr Unit × List Event × Params :=
  match env.poolRes with
  | .error e => (.error e, [], params)
  | .ok _ =>
    let params := normalizeParams params
    match env.acquireRes with
    | .error e => (.error e, [], params)
    | .ok _ =>
      match env.fetchRes with
      | .error e => (.error e, [Event.fetchCall (starArgs params)], params)
      | .ok _ =>
        let logEv :=
          if env.elapsedMs > 1000 then [Event.slowWarn]
          else if env.debugEnabled then [Event.debugLog] else []
        (.ok (), [Event.fetchCall (starArgs params)] ++ logEv, params)

/-- Model of `db.py` lines 124-169: `async def execute_query(sql, params=(),
timeout=30.0)`. -/
def executeQueryRun (env : QEnv) (sql : String) (params : Params) :
    Except PyErr Unit × List Event :=
  match executeTryBody env params with
  | (.ok _, evs, _) => (.ok (), evs)
  | (.error PyErr.timeout, evs, params') =>
    let fb := executeFallback env (starArgs params')
    (fb.1, evs ++ [Event.poolTimeoutWarn] ++ fb.2)
  | (.error (PyErr.other c), evs, _) =>
    (.error (.other c), evs ++ [Event.queryFailLog])

/-- The first exception raised by the pooled attempt (pool obtainment,
connection acquisition, or the pooled fetch/execute), if any. -/
def pooledErr (env : QEnv) : Option PyErr :=
  match env.poolRes with
  | .error e => some e
  | .ok _ =>
    match env.acquireRes with
    | .error e => some e
    | .ok _ =>
      match env.fetchRes with
      | .error e => some e
      | .ok _ => none

/-- Number of direct-connection attempts recorded in a trace. -/
def countDirect (tr : List Event) : Nat := tr.count Event.directAttempt

/-- Number of slow-query warning entries recorded in a trace. -/
def countSlow (tr : List Event) : Nat := tr.count Event.slowWarn

/-- The positional arguments of an execution call event (pooled `fetchCall`
or fallback `directCall`), if the event is one. -/
def callArgs : Event → Option (List Value)
  | .fetchCall a => some a
  | .directCall a => some a
  | .slowWarn => none
  | .debugLog => none
  | .poolTimeoutWarn => none
  | .directAttempt => none
  | .directInfo => none
  | .directFailLog => none
  | .queryFailLog => none

/-- The arguments of every statement execution in a trace, in order. -/
def execCalls (tr : List Event) : List (List Value) := tr.filterMap callArgs

/-! ### Pool lifecycle: `_dsn`, `get_pool` (sequential view), `close_pool`

The singleton `_GLOBAL_POOL` is modelled as an `Option Nat` (a pool id, or
`none`).  External outcomes — the `TS_DSN` environment variable, the result of
`asyncpg.create_pool`, the result of `pool.close()` — are oracle arguments. -/

/-- Errors escaping `get_pool`. `configError` is the
`RuntimeError("TS_DSN is not set in environment")` raised by `_dsn` —
the spec's ConfigurationError taxon; `createFailed` is a failure of
`asyncpg.create_pool` itself, re-raised unchanged. -/
inductive GetPoolErr where
  | configError : GetPoolErr
  | createFailed : Nat → GetPoolErr
deriving DecidableEq, Repr

/-- The module-level state of `db.py`: the `_GLOBAL_POOL` variable. -/
structure PoolState where
  globalPool : Option Nat
deriving DecidableEq, Repr

/-- Model of `db.py` lines 23-30: `_dsn()` reads `os.environ.get("TS_DSN", "")`
(absent and empty are indistinguishable after the default) and raises if the
result is falsy. -/
def dsnOf (tsdsn : Option String) : Except GetPoolErr String :=
  let dsn := tsdsn.getD ("")
  if dsn = "" then .error .configError else .ok dsn

/-- Result of one sequential call to `get_pool`: the returned pool or the
propagated error, the module state afterwards, and whether any database
connection attempt (`asyncpg.create_pool`) was started. -/
structure GetPoolResult where
  result : Except GetPoolErr Nat
  state : PoolState
  connectionAttempted : Bool
deriving DecidableEq, Repr

/-- Model of `db.py` lines 38-63: `get_pool`, viewed sequentially (a single caller;
the interleaved multi-task semantics is `Race.Step` below).  If the pool
exists it is returned at once.  Otherwise `_dsn()` is evaluated as the first
argument of `asyncpg.create_pool` — so a missing DSN raises BEFORE any
connection attempt; if `create_pool` fails, the `except` block resets
`_GLOBAL_POOL = None` and re-raises. -/
def getPoolStep (st : PoolState) (tsdsn : Option String)
    (createRes : Except Nat Nat) : GetPoolResult :=
  match st.globalPool with
  | some p => ⟨.ok p, st, false⟩
  | none =>
    match dsnOf tsdsn with
    | .error e => ⟨.error e, ⟨none⟩, false⟩
    | .ok _ =>
      match createRes with
      | .error c => ⟨.error (.createFailed c), ⟨none⟩, true⟩
      | .ok p => ⟨.ok p, ⟨some p⟩, true⟩

/-- Model of `db.py` lines 172-182: `close_pool`.  Nothing happens when no pool
exists.  Otherwise `await _GLOBAL_POOL.close()` runs first; only on its
success is the reference cleared (a failure is caught and logged, leaving the
reference in place — the function never raises). -/
def closePool (st : PoolState) (closeRes : Except Nat Unit) : PoolState :=
  match st.globalPool with
  | none => st
  | some _ =>
    match closeRes with
    | .ok _ => ⟨none⟩
    | .error _ => st

/-! ### Pagination display (`components/alarms/pagination.py`)

The branch without a precomputed `page_info` (line 77): an f-string over the
page arithmetic, with `rx.cond(current_page * page_size > total_items,
total_items, current_page * page_size)` selecting the capped upper bound. -/

/-- First displayed item index: `(current_page - 1) * page_size + 1`. -/
def pageStart (currentPage pageSize : Int) : Int :=
  (currentPage - 1) * pageSize + 1

/-- Last displayed item index: `rx.cond(current_page * page_size >
total_items, total_items, current_page * page_size)`. -/
def pageEnd (currentPage pageSize totalItems : Int) : Int :=
  if currentPage * pageSize > totalItems then totalItems
  else currentPage * pageSize

/-- Model of `pagination.py` line 77: the `display_info` string built when
`page_info is None`. -/
def displayInfo (currentPage pageSize totalItems : Int) : String :=
  "Showing " ++ toString (pageStart currentPage pageSize) ++ "-"
    ++ toString (pageEnd currentPage pageSize totalItems) ++ " of "
    ++ toString totalItems

/-! ### Interleaved semantics of concurrent `get_pool` callers

`db.py` runs under asyncio: cooperative single-threaded scheduling, where a
task can only lose control at an `await`.  Each concurrent caller of
`get_pool` is a task whose program counter walks through the await points of
lines 43-63:

  * `start`    — about to evaluate `if _GLOBAL_POOL is None` (line 43); on a
                 non-None pool, control falls through to `return _GLOBAL_POOL`
                 (line 63) with no intervening await, so check-and-return is
                 one atomic step;
  * `waitLock` — suspended at `async with _POOL_LOCK` (line 44), runnable
                 only while the lock is free;
  * `recheck`  — holding the lock, about to re-check `_GLOBAL_POOL is None`
                 (line 46);
  * `creating` — suspended at `await asyncpg.create_pool(...)` (line 50);
                 resuming assigns `_GLOBAL_POOL` with no intervening await
                 (construction is assumed to succeed — the racing-creation
                 claim is about the success path);
  * `release`  — about to exit the `async with` block (release the lock);
  * `retrieve` — past the lock, about to read `_GLOBAL_POOL` for
                 `return _GLOBAL_POOL` (line 63);
  * `ret p`    — returned with pool `p`.

Pools are numbered by creation order, so two constructions would yield
distinct pool values. -/

namespace Race

inductive PC where
  | start : PC
  | waitLock : PC
  | recheck : PC
  | creating : PC
  | release : PC
  | retrieve : PC
  | ret : Nat → PC
deriving DecidableEq, Repr

/-- Shared state of `n` concurrent `get_pool` callers: the module-level
`_GLOBAL_POOL`, the `_POOL_LOCK` holder, every task's program counter, and
the number of `asyncpg.create_pool` completions so far. -/
structure State (n : Nat) where
  pool : Option Nat
  lock : Option (Fin n)
  pc : Fin n → PC
  createCount : Nat

/-- One scheduler step: some runnable task advances to its next await point
(or completes).  Cooperative scheduling — only the chosen task's state
changes, plus the shared variables it touches. -/
inductive Step {n : Nat} : State n → State n → Prop where
  | startSome (s : State n) (i : Fin n) (p : Nat)
      (hpc : s.pc i = .start) (hp : s.pool = some p) :
      Step s { s with pc := Function.update s.pc i (.ret p) }
  | startNone (s : State n) (i : Fin n)
      (hpc : s.pc i = .start) (hp : s.pool = none) :
      Step s { s with pc := Function.update s.pc i .waitLock }
  | acquire (s : State n) (i : Fin n)
      (hpc : s.pc i = .waitLock) (hl : s.lock = none) :
      Step s { s with lock := some i, pc := Function.update s.pc i .recheck }
  | recheckSome (s : State n) (i : Fin n) (p : Nat)
      (hpc : s.pc i = .recheck) (hp : s.pool = some p) :
      Step s { s with pc := Function.update s.pc i .release }
  | recheckNone (s : State n) (i : Fin n)
      (hpc : s.pc i = .recheck) (hp : s.pool = none) :
      Step s { s with pc := Function.update s.pc i .creating }
  | create (s : State n) (i : Fin n)
      (hpc : s.pc i = .creating) :
      Step s { s with pool := some s.createCount
                      createCount := s.createCount + 1
                      pc := Function.update s.pc i .release }
  | releaseLock (s : State n) (i : Fin n)
      (hpc : s.pc i = .release) :
      Step s { s with lock := none, pc := Function.update s.pc i .retrieve }
  | retrievePool (s : State n) (i : Fin n) (p : Nat)
      (hpc : s.pc i = .retrieve) (hp : s.pool = some p) :
      Step s { s with pc := Function.update s.pc i (.ret p) }

/-- Initial state: no pool, lock free, all callers about to enter
`get_pool`. -/
def init (n : Nat) : State n :=
  { pool := none, lock := none, pc := fun _ => .start, createCount := 0 }

/-- States reachable from `init n` by any interleaving. -/
def Reachable (n : Nat) (s : State n) : Prop :=
  Relation.ReflTransGen Step (init n) s

/-- A task is inside the `async with _POOL_LOCK` block. -/
def inCrit : PC → Prop
  | .recheck => True
  | .creating => True
  | .release => True
  | _ => False

/-- The inductive invariant of the race. -/
structure Inv {n : Nat} (s : State n) : Prop where
  /-- the lock holder is inside the critical section. -/
  lockCrit : ∀ i, s.lock = some i → inCrit (s.pc i)
  /-- anyone inside the critical section holds the lock (mutual
  exclusion). -/
  critLock : ∀ i, inCrit (s.pc i) → s.lock = some i
  /-- a task suspended in `create_pool` saw `_GLOBAL_POOL is None`, and the
  pool stays `None` while it holds the lock. -/
  creatingNone : ∀ i, s.pc i = .creating → s.pool = none
  /-- no construction has completed while the pool is unset. -/
  noneCount : s.pool = none → s.createCount = 0
  /-- once the pool is set, exactly one construction has completed, and the
  pool is the one it produced. -/
  someCount : ∀ p, s.pool = some p → s.createCount = 1 ∧ p = 0
  /-- a task past the re-check (about to leave the lock) sees a set pool. -/
  releaseSome : ∀ i, s.pc i = .release → ∃ p, s.pool = some p
  /-- a task about to `return _GLOBAL_POOL` after the lock sees a set
  pool. -/
  retrieveSome : ∀ i, s.pc i = .retrieve → ∃ p, s.pool = some p
  /-- every returned value is the current pool. -/
  retPool : ∀ i p, s.pc i = .ret p → s.pool = some p

/-- Number of remaining steps of one task's walk through `get_pool`. -/
def pcRank : PC → Nat
  | .start => 6
  | .waitLock => 5
  | .recheck => 4
  | .creating => 3
  | .release => 2
  | .retrieve => 1
  | .ret _ => 0

/-- Total remaining work of all tasks. -/
def rankSum {n : Nat} (s : State n) : Nat :=
  ∑ i : Fin n, pcRank (s.pc i)

theorem inv_init (n : Nat) : Inv (init n) := by
  refine ⟨?_, ?_, ?_, ?_, ?_, ?_, ?_, ?_⟩ <;>
    simp [init, inCrit]

theorem inv_step {n : Nat} {s t : State n} (hinv : Inv s) (hst : Step s t) :
    Inv t := by
  cases hst with
  | startSome i p hpc hp =>
    refine ⟨?_, ?_, ?_, hinv.noneCount, hinv.someCount, ?_, ?_, ?_⟩
    · intro j hj
      rcases eq_or_ne j i with rfl | hne
      · have h1 := hinv.lockCrit j hj
        rw [hpc] at h1
        exact absurd h1 (by simp [inCrit])
      · simp only [Function.update_noteq hne]
        exact hinv.lockCrit j hj
    · intro j hj
      rcases eq_or_ne j i with rfl | hne
      · simp only [Function.update_same] at hj
        exact absurd hj (by simp [inCrit])
      · simp only [Function.update_noteq hne] at hj
        exact hinv.critLock j hj
    · intro j hj
      rcases eq_or_ne j i with rfl | hne
      · simp only [Function.update_same] at hj
        cases hj
      · simp only [Function.update_noteq hne] at hj
        exact hinv.creatingNone j hj
    · intro j hj
      rcases eq_or_ne j i with rfl | hne
      · simp only [Function.update_same] at hj
        cases hj
      · simp only [Function.update_noteq hne] at hj
        exact hinv.releaseSome j hj
    · intro j hj
      rcases eq_or_ne j i with rfl | hne
      · simp only [Function.update_same] at hj
        cases hj
      · simp only [Function.update_noteq hne] at hj
        exact hinv.retrieveSome j hj
    · intro j q hj
      rcases eq_or_ne j i with rfl | hne
      · simp only [Function.update_same] at hj
        cases hj
        exact hp
      · simp only [Function.update_noteq hne] at hj
        exact hinv.retPool j q hj
  | startNone i hpc hp =>
    refine ⟨?_, ?_, ?_, hinv.noneCount, hinv.someCount, ?_, ?_, ?_⟩
    · intro j hj
      rcases eq_or_ne j i with rfl | hne
      · have h1 := hinv.lockCrit j hj
        rw [hpc] at h1
        exact absurd h1 (by simp [inCrit])
      · simp only [Function.update_noteq hne]
        exact hinv.lockCrit j hj
    · intro j hj
      rcases eq_or_ne j i with rfl | hne
      · simp only [Function.update_same] at hj
        exact absurd hj (by simp [inCrit])
      · simp only [Function.update_noteq hne] at hj
        exact hinv.critLock j hj
    · intro j hj
      rcases eq_or_ne j i with rfl | hne
      · simp only [Function.update_same] at hj
        cases hj
      · simp only [Function.update_noteq hne] at hj
        exact hinv.creatingNone j hj
    · intro j hj
      rcases eq_or_ne j i with rfl | hne
      · simp only [Function.update_same] at hj
        cases hj
      · simp only [Function.update_noteq hne] at hj
        exact hinv.releaseSome j hj
    · intro j hj
      rcases eq_or_ne j i with rfl | hne
      · simp only [Function.update_same] at hj
        cases hj
      · simp only [Function.update_noteq hne] at hj
        exact hinv.retrieveSome j hj
    · intro j q hj
      rcases eq_or_ne j i with rfl | hne
      · simp only [Function.update_same] at hj
        cases hj
      · simp only [Function.update_noteq hne] at hj
        exact hinv.retPool j q hj
  | acquire i hpc hl =>
    refine ⟨?_, ?_, ?_, hinv.noneCount, hinv.someCount, ?_, ?_, ?_⟩
    · intro j hj
      have hij : i = j := by simpa using hj
      subst hij
      simp only [Function.update_same]
      simp [inCrit]
    · intro j hj
      rcases eq_or_ne j i with rfl | hne
      · simp
      · simp only [Function.update_noteq hne] at hj
        have h1 := hinv.critLock j hj
        rw [hl] at h1
        exact absurd h1 (by simp)
    · intro j hj
      rcases eq_or_ne j i with rfl | hne
      · simp only [Function.update_same] at hj
        cases hj
      · simp only [Function.update_noteq hne] at hj
        exact hinv.creatingNone j hj
    · intro j hj
      rcases eq_or_ne j i with rfl | hne
      · simp only [Function.update_same] at hj
        cases hj
      · simp only [Function.update_noteq hne] at hj
        exact hinv.releaseSome j hj
    · intro j hj
      rcases eq_or_ne j i with rfl | hne
      · simp only [Function.update_same] at hj
        cases hj
      · simp only [Function.update_noteq hne] at hj
        exact hinv.retrieveSome j hj
    · intro j q hj
      rcases eq_or_ne j i with rfl | hne
      · simp only [Function.update_same] at hj
        cases hj
      · simp only [Function.update_noteq hne] at hj
        exact hinv.retPool j q hj
  | recheckSome i p hpc hp =>
    refine ⟨?_, ?_, ?_, hinv.noneCount, hinv.someCount, ?_, ?_, ?_⟩
    · intro j hj
      rcases eq_or_ne j i with rfl | hne
      · simp only [Function.update_same]
        simp [inCrit]
      · simp only [Function.update_noteq hne]
        exact hinv.lockCrit j hj
    · intro j hj
      rcases eq_or_ne j i with rfl | hne
      · exact hinv.critLock j (by rw [hpc]; simp [inCrit])
      · simp only [Function.update_noteq hne] at hj
        exact hinv.critLock j hj
    · intro j hj
      rcases eq_or_ne j i with rfl | hne
      · simp only [Function.update_same] at hj
        cases hj
      · simp only [Function.update_noteq hne] at hj
        exact hinv.creatingNone j hj
    · intro j _
      exact ⟨p, hp⟩
    · intro j hj
      rcases eq_or_ne j i with rfl | hne
      · simp only [Function.update_same] at hj
        cases hj
      · simp only [Function.update_noteq hne] at hj
        exact hinv.retrieveSome j hj
    · intro j q hj
      rcases eq_or_ne j i with rfl | hne
      · simp only [Function.update_same] at hj
        cases hj
      · simp only [Function.update_noteq hne] at hj
        exact hinv.retPool j q hj
  | recheckNone i hpc hp =>
    refine ⟨?_, ?_, ?_, hinv.noneCount, hinv.someCount, ?_, ?_, ?_⟩
    · intro j hj
      rcases eq_or_ne j i with rfl | hne
      · simp only [Function.update_same]
        simp [inCrit]
      · simp only [Function.update_noteq hne]
        exact hinv.lockCrit j hj
    · intro j hj
      rcases eq_or_ne j i with rfl | hne
      · exact hinv.critLock j (by rw [hpc]; simp [inCrit])
      · simp only [Function.update_noteq hne] at hj
        exact hinv.critLock j hj
    · intro j _
      exact hp
    · intro j hj
      rcases eq_or_ne j i with rfl | hne
      · simp only [Function.update_same] at hj
        cases hj
      · simp only [Function.update_noteq hne] at hj
        exact hinv.releaseSome j hj
    · intro j hj
      rcases eq_or_ne j i with rfl | hne
      · simp only [Function.update_same] at hj
        cases hj
      · simp only [Function.update_noteq hne] at hj
        exact hinv.retrieveSome j hj
    · intro j q hj
      rcases eq_or_ne j i with rfl | hne
      · simp only [Function.update_same] at hj
        cases hj
      · simp only [Function.update_noteq hne] at hj
        exact hinv.retPool j q hj
  | create i hpc =>
    have hpool : s.pool = none := hinv.creatingNone i hpc
    have hcount : s.createCount = 0 := hinv.noneCount hpool
    refine ⟨?_, ?_, ?_, ?_, ?_, ?_, ?_, ?_⟩
    · intro j hj
      rcases eq_or_ne j i with rfl | hne
      · simp only [Function.update_same]
        simp [inCrit]
      · simp only [Function.update_noteq hne]
        exact hinv.lockCrit j hj
    · intro j hj
      rcases eq_or_ne j i with rfl | hne
      · exact hinv.critLock j (by rw [hpc]; simp [inCrit])
      · simp only [Function.update_noteq hne] at hj
        exact hinv.critLock j hj
    · intro j hj
      rcases eq_or_ne j i with rfl | hne
      · simp only [Function.update_same] at hj
        cases hj
      · simp only [Function.update_noteq hne] at hj
        have h1 := hinv.critLock j (by rw [hj]; simp [inCrit])
        have h2 := hinv.critLock i (by rw [hpc]; simp [inCrit])
        rw [h2] at h1
        exact absurd (Option.some.inj h1).symm hne
    · intro h
      exact absurd h (by simp)
    · intro q hq
      have hq2 : s.createCount = q := Option.some.inj hq
      constructor
      · show s.createCount + 1 = 1
        rw [hcount]
      · rw [← hq2, hcount]
    · intro j _
      exact ⟨s.createCount, rfl⟩
    · intro j _
      exact ⟨s.createCount, rfl⟩
    · intro j q hj
      rcases eq_or_ne j i with rfl | hne
      · simp only [Function.update_same] at hj
        cases hj
      · simp only [Function.update_noteq hne] at hj
        have h1 := hinv.retPool j q hj
        rw [hpool] at h1
        exact absurd h1 (by simp)
  | releaseLock i hpc =>
    have hlock : s.lock = some i := hinv.critLock i (by rw [hpc]; simp [inCrit])
    refine ⟨?_, ?_, ?_, hinv.noneCount, hinv.someCount, ?_, ?_, ?_⟩
    · intro j hj
      exact absurd hj (by simp)
    · intro j hj
      rcases eq_or_ne j i with rfl | hne
      · simp only [Function.update_same] at hj
        exact absurd hj (by simp [inCrit])
      · simp only [Function.update_noteq hne] at hj
        have h1 := hinv.critLock j hj
        rw [hlock] at h1
        exact absurd (Option.some.inj h1).symm hne
    · intro j hj
      rcases eq_or_ne j i with rfl | hne
      · simp only [Function.update_same] at hj
        cases hj
      · simp only [Function.update_noteq hne] at hj
        exact hinv.creatingNone j hj
    · intro j hj
      rcases eq_or_ne j i with rfl | hne
      · simp only [Function.update_same] at hj
        cases hj
      · simp only [Function.update_noteq hne] at hj
        exact hinv.releaseSome j hj
    · intro j hj
      rcases eq_or_ne j i with rfl | hne
      · exact hinv.releaseSome j hpc
      · simp only [Function.update_noteq hne] at hj
        exact hinv.retrieveSome j hj
    · intro j q hj
      rcases eq_or_ne j i with rfl | hne
      · simp only [Function.update_same] at hj
        cases hj
      · simp only [Function.update_noteq hne] at hj
        exact hinv.retPool j q hj
  | retrievePool i p hpc hp =>
    refine ⟨?_, ?_, ?_, hinv.noneCount, hinv.someCount, ?_, ?_, ?_⟩
    · intro j hj
      rcases eq_or_ne j i with rfl | hne
      · have h1 := hinv.lockCrit j hj
        rw [hpc] at h1
        exact absurd h1 (by simp [inCrit])
      · simp only [Function.update_noteq hne]
        exact hinv.lockCrit j hj
    · intro j hj
      rcases eq_or_ne j i with rfl | hne
      · simp only [Function.update_same] at hj
        exact absurd hj (by simp [inCrit])
      · simp only [Function.update_noteq hne] at hj
        exact hinv.critLock j hj
    · intro j hj
      rcases eq_or_ne j i with rfl | hne
      · simp only [Function.update_same] at hj
        cases hj
      · simp only [Function.update_noteq hne] at hj
        exact hinv.creatingNone j hj
    · intro j hj
      rcases eq_or_ne j i with rfl | hne
      · simp only [Function.update_same] at hj
        cases hj
      · simp only [Function.update_noteq hne] at hj
        exact hinv.releaseSome j hj
    · intro j hj
      rcases eq_or_ne j i with rfl | hne
      · simp only [Function.update_same] at hj
        cases hj
      · simp only [Function.update_noteq hne] at hj
        exact hinv.retrieveSome j hj
    · intro j q hj
      rcases eq_or_ne j i with rfl | hne
      · simp only [Function.update_same] at hj
        cases hj
        exact hp
      · simp only [Function.update_noteq hne] at hj
        exact hinv.retPool j q hj

theorem inv_reachable {n : Nat} {s : State n} (h : Reachable n s) : Inv s := by
  induction h with
  | refl => exact inv_init n
  | tail _ hstep ih => exact inv_step ih hstep

/-- In any reachable state, as long as some caller has not returned, some
task can take a step (the schedule never deadlocks: in particular a task
waiting for `_POOL_LOCK` waits only while the holder itself can advance). -/
theorem progress {n : Nat} {s : State n} (hreach : Reachable n s)
    (i : Fin n) (hni : ∀ p, s.pc i ≠ PC.ret p) : ∃ t, Step s t := by
  have hinv := inv_reachable hreach
  cases hpci : s.pc i with
  | start =>
    cases hp : s.pool with
    | none => exact ⟨_, .startNone s i hpci hp⟩
    | some p => exact ⟨_, .startSome s i p hpci hp⟩
  | waitLock =>
    cases hl : s.lock with
    | none => exact ⟨_, .acquire s i hpci hl⟩
    | some j =>
      have hcrit := hinv.lockCrit j hl
      cases hpcj : s.pc j with
      | recheck =>
        cases hp : s.pool with
        | none => exact ⟨_, .recheckNone s j hpcj hp⟩
        | some p => exact ⟨_, .recheckSome s j p hpcj hp⟩
      | creating => exact ⟨_, .create s j hpcj⟩
      | release => exact ⟨_, .releaseLock s j hpcj⟩
      | start => rw [hpcj] at hcrit; exact absurd hcrit (by simp [inCrit])
      | waitLock => rw [hpcj] at hcrit; exact absurd hcrit (by simp [inCrit])
      | retrieve => rw [hpcj] at hcrit; exact absurd hcrit (by simp [inCrit])
      | ret p => rw [hpcj] at hcrit; exact absurd hcrit (by simp [inCrit])
  | recheck =>
    cases hp : s.pool with
    | none => exact ⟨_, .recheckNone s i hpci hp⟩
    | some p => exact ⟨_, .recheckSome s i p hpci hp⟩
  | creating => exact ⟨_, .create s i hpci⟩
  | release => exact ⟨_, .releaseLock s i hpci⟩
  | retrieve =>
    obtain ⟨p, hp⟩ := hinv.retrieveSome i hpci
    exact ⟨_, .retrievePool s i p hpci hp⟩
  | ret p => exact absurd hpci (hni p)

theorem rankSum_update_lt {n : Nat} (s : State n) (i : Fin n) (v : PC)
    (h : pcRank v < pcRank (s.pc i)) :
    (∑ j : Fin n, pcRank (Function.update s.pc i v j)) <
      ∑ j : Fin n, pcRank (s.pc j) := by
  apply Finset.sum_lt_sum
  · intro j _
    rcases eq_or_ne j i with rfl | hne
    · simp only [Function.update_same]
      exact le_of_lt h
    · simp only [Function.update_noteq hne]
      exact le_rfl
  · exact ⟨i, Finset.mem_univ i, by
      simp only [Function.update_same]
      exact h⟩

/-- Every scheduler step strictly decreases the total remaining work, so
every maximal interleaving is finite: no caller is lost in an infinite
wait. -/
theorem step_rankSum_lt {n : Nat} {s t : State n} (hst : Step s t) :
    rankSum t < rankSum s := by
  cases hst with
  | startSome i p hpc hp =>
    exact rankSum_update_lt s i _ (by rw [hpc]; simp [pcRank])
  | startNone i hpc hp =>
    exact rankSum_update_lt s i _ (by rw [hpc]; simp [pcRank])
  | acquire i hpc hl =>
    exact rankSum_update_lt s i _ (by rw [hpc]; simp [pcRank])
  | recheckSome i p hpc hp =>
    exact rankSum_update_lt s i _ (by rw [hpc]; simp [pcRank])
  | recheckNone i hpc hp =>
    exact rankSum_update_lt s i _ (by rw [hpc]; simp [pcRank])
  | create i hpc =>
    exact rankSum_update_lt s i _ (by rw [hpc]; simp [pcRank])
  | releaseLock i hpc =>
    exact rankSum_update_lt s i _ (by rw [hpc]; simp [pcRank])
  | retrievePool i p hpc hp =>
    exact rankSum_update_lt s i _ (by rw [hpc]; simp [pcRank])

end Race

/-! ### Reduction lemmas for the executor model -/

theorem qTryBody_poolErr (env : QEnv) (params : Params) (e : PyErr)
    (h : env.poolRes = .error e) :
    qTryBody env params = (.error e, [], params) := by
  simp [qTryBody, h]

theorem qTryBody_acquireErr (env : QEnv) (params : Params) (e : PyErr)
    (hp : env.poolRes = .ok ()) (ha : env.acquireRes = .error e) :
    qTryBody env params = (.error e, [], normalizeParams params) := by
  simp [qTryBody, hp, ha]

theorem qTryBody_fetchErr (env : QEnv) (params : Params) (e : PyErr)
    (hp : env.poolRes = .ok ()) (ha : env.acquireRes = .ok ())
    (hf : env.fetchRes = .error e) :
    qTryBody env params =
      (.error e, [Event.fetchCall (starArgs (normalizeParams params))],
        normalizeParams params) := by
  simp [qTryBody, hp, ha, hf]

theorem qTryBody_ok (env : QEnv) (params : Params) (rows : List Row)
    (hp : env.poolRes = .ok ()) (ha : env.acquireRes = .ok ())
    (hf : env.fetchRes = .ok rows) :
    qTryBody env params =
      (.ok rows,
        Event.fetchCall (starArgs (normalizeParams params)) ::
          (if env.elapsedMs > 1000 then [Event.slowWarn]
           else if env.debugEnabled then [Event.debugLog] else []),
        normalizeParams params) := by
  simp [qTryBody, hp, ha, hf]

theorem qRun_tryBody_ok {env : QEnv} {params : Params} {rows : List Row}
    {evs : List Event} {p : Params} (sql : String)
    (h : qTryBody env params = (.ok rows, evs, p)) :
    qRun env sql params = (.ok rows, evs) := by
  unfold qRun
  rw [h]

theorem qRun_tryBody_timeout {env : QEnv} {params : Params}
    {evs : List Event} {p : Params} (sql : String)
    (h : qTryBody env params = (.error .timeout, evs, p)) :
    qRun env sql params = ((qFallback env (starArgs p)).1,
      evs ++ [Event.poolTimeoutWarn] ++ (qFallback env (starArgs p)).2) := by
  unfold qRun
  rw [h]

theorem qRun_tryBody_other {env : QEnv} {params : Params} {c : Nat}
    {evs : List Event} {p : Params} (sql : String)
    (h : qTryBody env params = (.error (.other c), evs, p)) :
    qRun env sql params =
      (.error (.other c), evs ++ [Event.queryFailLog]) := by
  unfold qRun
  rw [h]

theorem executeTryBody_poolErr (env : QEnv) (params : Params) (e : PyErr)
    (h : env.poolRes = .error e) :
    executeTryBody env params = (.error e, [], params) := by
  simp [executeTryBody, h]

theorem executeTryBody_acquireErr (env : QEnv) (params : Params) (e : PyErr)
    (hp : env.poolRes = .ok ()) (ha : env.acquireRes = .error e) :
    executeTryBody env params = (.error e, [], normalizeParams params) := by
  simp [executeTryBody, hp, ha]

theorem executeTryBody_fetchErr (env : QEnv) (params : Params) (e : PyErr)
    (hp : env.poolRes = .ok ()) (ha : env.acquireRes = .ok ())
    (hf : env.fetchRes = .error e) :
    executeTryBody env params =
      (.error e, [Event.fetchCall (starArgs (normalizeParams params))],
        normalizeParams params) := by
  simp [executeTryBody, hp, ha, hf]

theorem executeTryBody_ok (env : QEnv) (params : Params) (rows : List Row)
    (hp : env.poolRes = .ok ()) (ha : env.acquireRes = .ok ())
    (hf : env.fetchRes = .ok rows) :
    executeTryBody env params =
      (.ok (),
        Event.fetchCall (starArgs (normalizeParams params)) ::
          (if env.elapsedMs > 1000 then [Event.slowWarn]
           else if env.debugEnabled then [Event.debugLog] else []),
        normalizeParams params) := by
  simp [executeTryBody, hp, ha, hf]

theorem executeQueryRun_tryBody_ok {env : QEnv} {params : Params}
    {evs : List Event} {p : Params} (sql : String)
    (h : executeTryBody env params = (.ok (), evs, p)) :
    executeQueryRun env sql params = (.ok (), evs) := by
  unfold executeQueryRun
  rw [h]

theorem executeQueryRun_tryBody_timeout {env : QEnv} {params : Params}
    {evs : List Event} {p : Params} (sql : String)
    (h : executeTryBody env params = (.error .timeout, evs, p)) :
    executeQueryRun env sql params = ((executeFallback env (starArgs p)).1,
      evs ++ [Event.poolTimeoutWarn] ++
        (executeFallback env (starArgs p)).2) := by
  unfold executeQueryRun
  rw [h]

theorem executeQueryRun_tryBody_other {env : QEnv} {params : Params}
    {c : Nat} {evs : List Event} {p : Params} (sql : String)
    (h : executeTryBody env params = (.error (.other c), evs, p)) :
    executeQueryRun env sql params =
      (.error (.other c), evs ++ [Event.queryFailLog]) := by
  unfold executeQueryRun
  rw [h]

theorem qFallback_counts (env : QEnv) (args : List Value) :
    countDirect (qFallback env args).2 = 1
    ∧ countSlow (qFallback env args).2 = 0 := by
  rcases hc : env.connectRes with e | u
  · simp [qFallback, hc, countDirect, countSlow]
  · rcases hd : env.directFetchRes with e | rows <;>
      simp [qFallback, hc, hd, countDirect, countSlow]

theorem executeFallback_counts (env : QEnv) (args : List Value) :
    countDirect (executeFallback env args).2 = 1
    ∧ countSlow (executeFallback env args).2 = 0 := by
  rcases hc : env.connectRes with e | u
  · simp [executeFallback, hc, countDirect, countSlow]
  · rcases hd : env.directFetchRes with e | rows <;>
      simp [executeFallback, hc, hd, countDirect, countSlow]

/-! ### Claim theorems -/

/-- C1 (counterexample): with the pool obtained and a pooled connection
successfully acquired, a timeout raised by the execution phase itself (the
pooled `conn.fetch`) still sends `q` into the direct-connection fallback —
so the fallback is not reserved to pool-exhaustion (acquire-timeout)
failures as the claim states. -/
theorem fallback_on_execution_timeout_counterexample :
    (QEnv.mk (.ok ()) (.ok ()) (.error .timeout) 0 false (.ok ())
        (.ok []) 0).poolRes = .ok ()
    ∧ (QEnv.mk (.ok ()) (.ok ()) (.error .timeout) 0 false (.ok ())
        (.ok []) 0).acquireRes = .ok ()
    ∧ countDirect (qRun
        (QEnv.mk (.ok ()) (.ok ()) (.error .timeout) 0 false (.ok ())
          (.ok []) 0) "SELECT 1" (Params.pos [])).2 = 1 := by
  refine ⟨rfl, rfl, ?_⟩
  decide

theorem countDirect_append (l1 l2 : List Event) :
    countDirect (l1 ++ l2) = countDirect l1 + countDirect l2 := by
  simp [countDirect, List.count_append]

theorem countSlow_append (l1 l2 : List Event) :
    countSlow (l1 ++ l2) = countSlow l1 + countSlow l2 := by
  simp [countSlow, List.count_append]

theorem countDirect_cons (e : Event) (tr : List Event) :
    countDirect (e :: tr) =
      countDirect tr + (if e = Event.directAttempt then 1 else 0) := by
  cases e <;> simp [countDirect, List.count_cons]

theorem countSlow_cons (e : Event) (tr : List Event) :
    countSlow (e :: tr) =
      countSlow tr + (if e = Event.slowWarn then 1 else 0) := by
  cases e <;> simp [countSlow, List.count_cons]

theorem countDirect_nil : countDirect [] = 0 := rfl

theorem countSlow_nil : countSlow [] = 0 := rfl

/-- C1 (amended): for every call to `q` or `execute_query`, the
direct-connection fallback is attempted exactly when the pooled attempt
raises `asyncio.TimeoutError` — at any of its phases (pool obtainment,
connection acquisition, or the execution itself) — and every non-timeout
failure propagates to the caller with no fallback attempt, after being
logged. -/
theorem fallback_iff_pooled_timeout (env : QEnv) (sql : String)
    (params : Params) :
    countDirect (qRun env sql params).2 =
      (if pooledErr env = some PyErr.timeout then 1 else 0)
    ∧ countDirect (executeQueryRun env sql params).2 =
      (if pooledErr env = some PyErr.timeout then 1 else 0)
    ∧ (∀ c, pooledErr env = some (PyErr.other c) →
        (qRun env sql params).1 = .error (PyErr.other c)
        ∧ (executeQueryRun env sql params).1 = .error (PyErr.other c)) := by
  rcases hp : env.poolRes with e | ⟨⟩
  · rcases e with _ | c0
    · have hq := qRun_tryBody_timeout sql (qTryBody_poolErr env params _ hp)
      have he := executeQueryRun_tryBody_timeout sql
        (executeTryBody_poolErr env params _ hp)
      have hpe : pooledErr env = some PyErr.timeout := by simp [pooledErr, hp]
      rw [hq, he, hpe]
      refine ⟨?_, ?_, fun c h => by simp at h⟩
      · simp [countDirect_append, countDirect_cons, countDirect_nil,
          (qFallback_counts env (starArgs params)).1]
      · simp [countDirect_append, countDirect_cons, countDirect_nil,
          (executeFallback_counts env (starArgs params)).1]
    · have hq := qRun_tryBody_other sql (qTryBody_poolErr env params _ hp)
      have he := executeQueryRun_tryBody_other sql
        (executeTryBody_poolErr env params _ hp)
      have hpe : pooledErr env = some (PyErr.other c0) := by
        simp [pooledErr, hp]
      rw [hq, he, hpe]
      refine ⟨?_, ?_, fun c h => ?_⟩
      · simp [countDirect_append, countDirect_cons, countDirect_nil]
      · simp [countDirect_append, countDirect_cons, countDirect_nil]
      · have hc : c0 = c := by simpa using h
        subst hc
        exact ⟨rfl, rfl⟩
  · rcases ha : env.acquireRes with e | ⟨⟩
    · rcases e with _ | c0
      · have hq := qRun_tryBody_timeout sql
          (qTryBody_acquireErr env params _ hp ha)
        have he := executeQueryRun_tryBody_timeout sql
          (executeTryBody_acquireErr env params _ hp ha)
        have hpe : pooledErr env = some PyErr.timeout := by
          simp [pooledErr, hp, ha]
        rw [hq, he, hpe]
        refine ⟨?_, ?_, fun c h => by simp at h⟩
        · simp [countDirect_append, countDirect_cons, countDirect_nil,
            (qFallback_counts env (starArgs (normalizeParams params))).1]
        · simp [countDirect_append, countDirect_cons, countDirect_nil,
            (executeFallback_counts env
              (starArgs (normalizeParams params))).1]
      · have hq := qRun_tryBody_other sql
          (qTryBody_acquireErr env params _ hp ha)
        have he := executeQueryRun_tryBody_other sql
          (executeTryBody_acquireErr env params _ hp ha)
        have hpe : pooledErr env = some (PyErr.other c0) := by
          simp [pooledErr, hp, ha]
        rw [hq, he, hpe]
        refine ⟨?_, ?_, fun c h => ?_⟩
        · simp [countDirect_append, countDirect_cons, countDirect_nil]
        · simp [countDirect_append, countDirect_cons, countDirect_nil]
        · have hc : c0 = c := by simpa using h
          subst hc
          exact ⟨rfl, rfl⟩
    · rcases hf : env.fetchRes with e | rows
      · rcases e with _ | c0
        · have hq := qRun_tryBody_timeout sql
            (qTryBody_fetchErr env params _ hp ha hf)
          have he := executeQueryRun_tryBody_timeout sql
            (executeTryBody_fetchErr env params _ hp ha hf)
          have hpe : pooledErr env = some PyErr.timeout := by
            simp [pooledErr, hp, ha, hf]
          rw [hq, he, hpe]
          refine ⟨?_, ?_, fun c h => by simp at h⟩
          · simp [countDirect_append, countDirect_cons, countDirect_nil,
              (qFallback_counts env (starArgs (normalizeParams params))).1]
          · simp [countDirect_append, countDirect_cons, countDirect_nil,
              (executeFallback_counts env
                (starArgs (normalizeParams params))).1]
        · have hq := qRun_tryBody_other sql
            (qTryBody_fetchErr env params _ hp ha hf)
          have he := executeQueryRun_tryBody_other sql
            (executeTryBody_fetchErr env params _ hp ha hf)
          have hpe : pooledErr env = some (PyErr.other c0) := by
            simp [pooledErr, hp, ha, hf]
          rw [hq, he, hpe]
          refine ⟨?_, ?_, fun c h => ?_⟩
          · simp [countDirect_append, countDirect_cons, countDirect_nil]
          · simp [countDirect_append, countDirect_cons, countDirect_nil]
          · have hc : c0 = c := by simpa using h
            subst hc
            exact ⟨rfl, rfl⟩
      · have hq := qRun_tryBody_ok sql (qTryBody_ok env params rows hp ha hf)
        have he := executeQueryRun_tryBody_ok sql
          (executeTryBody_ok env params rows hp ha hf)
        have hpe : pooledErr env = none := by simp [pooledErr, hp, ha, hf]
        have hite : countDirect
            (if env.elapsedMs > 1000 then [Event.slowWarn]
             else if env.debugEnabled then [Event.debugLog] else []) = 0 := by
          split
          · rfl
          · split <;> rfl
        rw [hq, he, hpe]
        refine ⟨?_, ?_, fun c h => by simp at h⟩
        · simp [countDirect_cons, hite]
        · simp [countDirect_cons, hite]

theorem qTryBody_timeout_shape (env : QEnv) (params : Params)
    (h : pooledErr env = some PyErr.timeout) :
    ∃ evs p, qTryBody env params = (.error .timeout, evs, p)
      ∧ countDirect evs = 0 ∧ countSlow evs = 0 := by
  rcases hp : env.poolRes with e | ⟨⟩
  · have he : e = PyErr.timeout := by simpa [pooledErr, hp] using h
    subst he
    exact ⟨[], params, qTryBody_poolErr env params _ hp, rfl, rfl⟩
  · rcases ha : env.acquireRes with e | ⟨⟩
    · have he : e = PyErr.timeout := by simpa [pooledErr, hp, ha] using h
      subst he
      exact ⟨[], normalizeParams params,
        qTryBody_acquireErr env params _ hp ha, rfl, rfl⟩
    · rcases hf : env.fetchRes with e | rows
      · have he : e = PyErr.timeout := by
          simpa [pooledErr, hp, ha, hf] using h
        subst he
        refine ⟨[Event.fetchCall (starArgs (normalizeParams params))],
          normalizeParams params, qTryBody_fetchErr env params _ hp ha hf,
          ?_, ?_⟩ <;>
          simp [countDirect_cons, countDirect_nil, countSlow_cons,
            countSlow_nil]
      · exact absurd h (by simp [pooledErr, hp, ha, hf])

theorem executeTryBody_timeout_shape (env : QEnv) (params : Params)
    (h : pooledErr env = some PyErr.timeout) :
    ∃ evs p, executeTryBody env params = (.error .timeout, evs, p)
      ∧ countDirect evs = 0 ∧ countSlow evs = 0 := by
  rcases hp : env.poolRes with e | ⟨⟩
  · have he : e = PyErr.timeout := by simpa [pooledErr, hp] using h
    subst he
    exact ⟨[], params, executeTryBody_poolErr env params _ hp, rfl, rfl⟩
  · rcases ha : env.acquireRes with e | ⟨⟩
    · have he : e = PyErr.timeout := by simpa [pooledErr, hp, ha] using h
      subst he
      exact ⟨[], normalizeParams params,
        executeTryBody_acquireErr env params _ hp ha, rfl, rfl⟩
    · rcases hf : env.fetchRes with e | rows
      · have he : e = PyErr.timeout := by
          simpa [pooledErr, hp, ha, hf] using h
        subst he
        refine ⟨[Event.fetchCall (starArgs (normalizeParams params))],
          normalizeParams params,
          executeTryBody_fetchErr env params _ hp ha hf, ?_, ?_⟩ <;>
          simp [countDirect_cons, countDirect_nil, countSlow_cons,
            countSlow_nil]
      · exact absurd h (by simp [pooledErr, hp, ha, hf])

theorem qFallback_result_connectErr (env : QEnv) (args : List Value)
    (e : PyErr) (h : env.connectRes = .error e) :
    (qFallback env args).1 = .error e := by
  simp [qFallback, h]

theorem qFallback_result_directErr (env : QEnv) (args : List Value)
    (e : PyErr) (hc : env.connectRes = .ok ())
    (hd : env.directFetchRes = .error e) :
    (qFallback env args).1 = .error e := by
  simp [qFallback, hc, hd]

theorem executeFallback_result_connectErr (env : QEnv) (args : List Value)
    (e : PyErr) (h : env.connectRes = .error e) :
    (executeFallback env args).1 = .error e := by
  simp [executeFallback, h]

theorem executeFallback_result_directErr (env : QEnv) (args : List Value)
    (e : PyErr) (hc : env.connectRes = .ok ())
    (hd : env.directFetchRes = .error e) :
    (executeFallback env args).1 = .error e := by
  simp [executeFallback, hc, hd]

/-- C1 (witness): a non-timeout pool failure (code 5) propagates from `q`
with no fallback attempt. -/
theorem fallback_iff_pooled_timeout_witness :
    (qRun (QEnv.mk (.error (.other 5)) (.ok ()) (.ok []) 0 false (.ok ())
        (.ok []) 0) "REFRESH" (Params.pos [])).1 = .error (PyErr.other 5)
    ∧ (executeQueryRun (QEnv.mk (.error (.other 5)) (.ok ()) (.ok []) 0
        false (.ok ()) (.ok []) 0) "REFRESH" (Params.pos [])).1 =
      .error (PyErr.other 5) :=
  (fallback_iff_pooled_timeout
    (QEnv.mk (.error (.other 5)) (.ok ()) (.ok []) 0 false (.ok ())
      (.ok []) 0) "REFRESH" (Params.pos [])).2.2 5 rfl

/-- C2: with no pool yet created, an absent or empty `TS_DSN` makes
`get_pool` fail with the configuration error raised by `_dsn` (the
`RuntimeError("TS_DSN is not set in environment")` — the spec's
ConfigurationError taxon), before any connection attempt is started,
leaving the singleton unset. -/
theorem getPool_missing_dsn (st : PoolState) (tsdsn : Option String)
    (createRes : Except Nat Nat) (hfirst : st.globalPool = none)
    (habsent : tsdsn = none ∨ tsdsn = some ("")) :
    getPoolStep st tsdsn createRes =
      ⟨.error .configError, ⟨none⟩, false⟩ := by
  obtain ⟨pool⟩ := st
  subst hfirst
  rcases habsent with rfl | rfl <;> simp [getPoolStep, dsnOf]

/-- C2 (witness): the first `get_pool` with `TS_DSN` unset fails with the
configuration error and no connection attempt. -/
theorem getPool_missing_dsn_witness :
    getPoolStep ⟨none⟩ none (.ok 7) =
      ⟨.error .configError, ⟨none⟩, false⟩ :=
  getPool_missing_dsn ⟨none⟩ none (.ok 7) rfl (Or.inl rfl)

/-- C3: when the pooled attempt times out, exactly one direct-connection
attempt is made (no retry of the direct path); if the direct attempt fails
— at connect or at execution — that very exception (the FallbackFailure) is
re-raised to the caller, not a generic error class. -/
theorem fallback_single_attempt_propagates (env : QEnv) (sql : String)
    (params : Params) (h : pooledErr env = some PyErr.timeout) :
    countDirect (qRun env sql params).2 = 1
    ∧ countDirect (executeQueryRun env sql params).2 = 1
    ∧ (∀ e, env.connectRes = .error e →
        (qRun env sql params).1 = .error e
        ∧ (executeQueryRun env sql params).1 = .error e)
    ∧ (∀ e, env.connectRes = .ok () → env.directFetchRes = .error e →
        (qRun env sql params).1 = .error e
        ∧ (executeQueryRun env sql params).1 = .error e) := by
  obtain ⟨evs, p, hq, hcd, -⟩ := qTryBody_timeout_shape env params h
  obtain ⟨evs2, p2, he, hcd2, -⟩ := executeTryBody_timeout_shape env params h
  have hqr := qRun_tryBody_timeout sql hq
  have her := executeQueryRun_tryBody_timeout sql he
  rw [hqr, her]
  refine ⟨?_, ?_, fun e hc => ?_, fun e hc hd => ?_⟩
  · simp [countDirect_append, countDirect_cons, countDirect_nil, hcd,
      (qFallback_counts env (starArgs p)).1]
  · simp [countDirect_append, countDirect_cons, countDirect_nil, hcd2,
      (executeFallback_counts env (starArgs p2)).1]
  · exact ⟨qFallback_result_connectErr env (starArgs p) e hc,
      executeFallback_result_connectErr env (starArgs p2) e hc⟩
  · exact ⟨qFallback_result_directErr env (starArgs p) e hc hd,
      executeFallback_result_directErr env (starArgs p2) e hc hd⟩

/-- C3 (witness): a pool timeout followed by a failing direct connection
(error code 7) makes exactly one direct attempt and re-raises that same
error. -/
theorem fallback_single_attempt_propagates_witness :
    countDirect (qRun (QEnv.mk (.error .timeout) (.ok ()) (.ok []) 0 false
        (.error (.other 7)) (.ok []) 0) "DELETE" (Params.pos [])).2 = 1
    ∧ (qRun (QEnv.mk (.error .timeout) (.ok ()) (.ok []) 0 false
        (.error (.other 7)) (.ok []) 0) "DELETE" (Params.pos [])).1 =
      .error (PyErr.other 7) :=
  ⟨(fallback_single_attempt_propagates
      (QEnv.mk (.error .timeout) (.ok ()) (.ok []) 0 false
        (.error (.other 7)) (.ok []) 0) "DELETE" (Params.pos []) rfl).1,
   ((fallback_single_attempt_propagates
      (QEnv.mk (.error .timeout) (.ok ()) (.ok []) 0 false
        (.error (.other 7)) (.ok []) 0) "DELETE" (Params.pos []) rfl).2.2.1
     (PyErr.other 7) rfl).1⟩

/-- C4: `close_pool` with a successful close clears the singleton; it is a
no-op when no pool exists; it is idempotent; and a subsequent `get_pool`
transparently constructs a fresh pool. -/
theorem closePool_spec :
    (∀ st : PoolState, (closePool st (.ok ())).globalPool = none)
    ∧ (∀ r : Except Nat Unit, closePool ⟨none⟩ r = ⟨none⟩)
    ∧ (∀ (st : PoolState) (r : Except Nat Unit),
        closePool (closePool st (.ok ())) r = closePool st (.ok ()))
    ∧ (∀ (st : PoolState) (tsdsn : Option String) (s : String) (p : Nat),
        dsnOf tsdsn = .ok s →
        getPoolStep (closePool st (.ok ())) tsdsn (.ok p) =
          ⟨.ok p, ⟨some p⟩, true⟩) := by
  refine ⟨?_, ?_, ?_, ?_⟩
  · intro st
    obtain ⟨pool⟩ := st
    cases pool <;> rfl
  · intro r
    rfl
  · intro st r
    obtain ⟨pool⟩ := st
    cases pool <;> rfl
  · intro st tsdsn s p hd
    obtain ⟨pool⟩ := st
    cases pool <;> simp [closePool, getPoolStep, hd]

/-- C4 (witness): closing a pool and then querying rebuilds a fresh pool. -/
theorem closePool_spec_witness :
    getPoolStep (closePool ⟨some 3⟩ (.ok ())) (some ("postgresql://h"))
        (.ok 5) = ⟨.ok 5, ⟨some 5⟩, true⟩ :=
  closePool_spec.2.2.2 ⟨some 3⟩ (some ("postgresql://h")) "postgresql://h" 5
    rfl

/-- C5: if pool construction fails inside `get_pool`, the singleton stays
unset (never a partially-constructed pool), the error propagates, and a
later call retries construction from scratch and can succeed. -/
theorem getPool_create_failure_resets (tsdsn : Option String) (s : String)
    (c p : Nat) (hdsn : dsnOf tsdsn = .ok s) :
    getPoolStep ⟨none⟩ tsdsn (.error c) =
      ⟨.error (.createFailed c), ⟨none⟩, true⟩
    ∧ getPoolStep ⟨none⟩ tsdsn (.ok p) = ⟨.ok p, ⟨some p⟩, true⟩ := by
  constructor <;> simp [getPoolStep, hdsn]

/-- C5 (witness): a failed construction (code 3) leaves the singleton
unset and the next call constructs pool 1. -/
theorem getPool_create_failure_resets_witness :
    getPoolStep ⟨none⟩ (some ("postgresql://h")) (.error 3) =
      ⟨.error (.createFailed 3), ⟨none⟩, true⟩
    ∧ getPoolStep ⟨none⟩ (some ("postgresql://h")) (.ok 1) =
      ⟨.ok 1, ⟨some 1⟩, true⟩ :=
  getPool_create_failure_resets (some ("postgresql://h")) "postgresql://h"
    3 1 rfl

theorem execCalls_append (l1 l2 : List Event) :
    execCalls (l1 ++ l2) = execCalls l1 ++ execCalls l2 := by
  simp [execCalls]

theorem execCalls_nil : execCalls [] = [] := rfl

theorem execCalls_ptw : execCalls [Event.poolTimeoutWarn] = [] := rfl

theorem execCalls_qfl : execCalls [Event.queryFailLog] = [] := rfl

theorem execCalls_fetchCall (a : List Value) (tr : List Event) :
    execCalls (Event.fetchCall a :: tr) = a :: execCalls tr := by
  simp [execCalls, callArgs]

theorem execCalls_logEv (c : Prop) [Decidable c] (d : Bool) :
    execCalls (if c then [Event.slowWarn]
      else if d then [Event.debugLog] else []) = [] := by
  by_cases hc : c
  · simp [hc, execCalls, callArgs]
  · cases d <;> simp [hc, execCalls, callArgs]

theorem countSlow_logEv (c : Prop) [Decidable c] (d : Bool) :
    countSlow (if c then [Event.slowWarn]
      else if d then [Event.debugLog] else []) =
      (if c then 1 else 0) := by
  by_cases hc : c
  · simp [hc, countSlow_cons, countSlow_nil]
  · cases d <;> simp [hc, countSlow_cons, countSlow_nil]

theorem qFallback_execCalls_sub (env : QEnv) (args : List Value) :
    ∀ x ∈ execCalls (qFallback env args).2, x = args := by
  rcases hc : env.connectRes with e | ⟨⟩
  · simp [qFallback, hc, execCalls, callArgs]
  · rcases hd : env.directFetchRes with e | rows <;>
      simp [qFallback, hc, hd, execCalls, callArgs]

theorem executeFallback_execCalls_sub (env : QEnv) (args : List Value) :
    ∀ x ∈ execCalls (executeFallback env args).2, x = args := by
  rcases hc : env.connectRes with e | ⟨⟩
  · simp [executeFallback, hc, execCalls, callArgs]
  · rcases hd : env.directFetchRes with e | rows <;>
      simp [executeFallback, hc, hd, execCalls, callArgs]

theorem qRun_execCalls_poolOk (env : QEnv) (sql : String) (params : Params)
    (hp : env.poolRes = .ok ()) :
    ∀ x ∈ execCalls (qRun env sql params).2,
      x = starArgs (normalizeParams params) := by
  rcases ha : env.acquireRes with e | ⟨⟩
  · rcases e with _ | c0
    · have hq := qRun_tryBody_timeout sql
        (qTryBody_acquireErr env params _ hp ha)
      rw [hq]
      intro x hx
      simp only [execCalls_append, execCalls_nil, execCalls_ptw,
        List.nil_append, List.mem_append, List.not_mem_nil,
        false_or] at hx
      exact qFallback_execCalls_sub env _ x hx
    · have hq := qRun_tryBody_other sql
        (qTryBody_acquireErr env params _ hp ha)
      rw [hq]
      intro x hx
      simp [execCalls_append, execCalls_nil, execCalls_qfl] at hx
  · rcases hf : env.fetchRes with e | rows
    · rcases e with _ | c0
      · have hq := qRun_tryBody_timeout sql
          (qTryBody_fetchErr env params _ hp ha hf)
        rw [hq]
        intro x hx
        simp only [execCalls_append, execCalls_fetchCall, execCalls_nil,
          execCalls_ptw, List.append_nil, List.mem_append,
          List.mem_singleton, List.mem_cons, List.not_mem_nil,
          or_false] at hx
        rcases hx with rfl | hx
        · rfl
        · exact qFallback_execCalls_sub env _ x hx
      · have hq := qRun_tryBody_other sql
          (qTryBody_fetchErr env params _ hp ha hf)
        rw [hq]
        intro x hx
        simp only [execCalls_append, execCalls_fetchCall, execCalls_nil,
          execCalls_qfl, List.append_nil, List.mem_append,
          List.mem_singleton, List.mem_cons, List.not_mem_nil,
          or_false] at hx
        exact hx
    · have hq := qRun_tryBody_ok sql (qTryBody_ok env params rows hp ha hf)
      rw [hq]
      intro x hx
      rw [execCalls_fetchCall, execCalls_logEv] at hx
      simp only [List.mem_singleton] at hx
      exact hx

theorem executeQueryRun_execCalls_poolOk (env : QEnv) (sql : String)
    (params : Params) (hp : env.poolRes = .ok ()) :
    ∀ x ∈ execCalls (executeQueryRun env sql params).2,
      x = starArgs (normalizeParams params) := by
  rcases ha : env.acquireRes with e | ⟨⟩
  · rcases e with _ | c0
    · have hq := executeQueryRun_tryBody_timeout sql
        (executeTryBody_acquireErr env params _ hp ha)
      rw [hq]
      intro x hx
      simp only [execCalls_append, execCalls_nil, execCalls_ptw,
        List.nil_append, List.mem_append, List.not_mem_nil,
        false_or] at hx
      exact executeFallback_execCalls_sub env _ x hx
    · have hq := executeQueryRun_tryBody_other sql
        (executeTryBody_acquireErr env params _ hp ha)
      rw [hq]
      intro x hx
      simp [execCalls_append, execCalls_nil, execCalls_qfl] at hx
  · rcases hf : env.fetchRes with e | rows
    · rcases e with _ | c0
      · have hq := executeQueryRun_tryBody_timeout sql
          (executeTryBody_fetchErr env params _ hp ha hf)
        rw [hq]
        intro x hx
        simp only [execCalls_append, execCalls_fetchCall, execCalls_nil,
          execCalls_ptw, List.append_nil, List.mem_append,
          List.mem_singleton, List.mem_cons, List.not_mem_nil,
          or_false] at hx
        rcases hx with rfl | hx
        · rfl
        · exact executeFallback_execCalls_sub env _ x hx
      · have hq := executeQueryRun_tryBody_other sql
          (executeTryBody_fetchErr env params _ hp ha hf)
        rw [hq]
        intro x hx
        simp only [execCalls_append, execCalls_fetchCall, execCalls_nil,
          execCalls_qfl, List.append_nil, List.mem_append,
          List.mem_singleton, List.mem_cons, List.not_mem_nil,
          or_false] at hx
        exact hx
    · have hq := executeQueryRun_tryBody_ok sql
        (executeTryBody_ok env params rows hp ha hf)
      rw [hq]
      intro x hx
      rw [execCalls_fetchCall, execCalls_logEv] at hx
      simp only [List.mem_singleton] at hx
      exact hx

theorem qRun_execCalls_allOk (env : QEnv) (sql : String) (params : Params)
    (rows : List Row) (hp : env.poolRes = .ok ())
    (ha : env.acquireRes = .ok ()) (hf : env.fetchRes = .ok rows) :
    execCalls (qRun env sql params).2 =
      [starArgs (normalizeParams params)] := by
  have hq := qRun_tryBody_ok sql (qTryBody_ok env params rows hp ha hf)
  rw [hq]
  show execCalls (Event.fetchCall (starArgs (normalizeParams params)) :: _)
    = _
  rw [execCalls_fetchCall, execCalls_logEv]

theorem executeQueryRun_execCalls_allOk (env : QEnv) (sql : String)
    (params : Params) (rows : List Row) (hp : env.poolRes = .ok ())
    (ha : env.acquireRes = .ok ()) (hf : env.fetchRes = .ok rows) :
    execCalls (executeQueryRun env sql params).2 =
      [starArgs (normalizeParams params)] := by
  have hq := executeQueryRun_tryBody_ok sql
    (executeTryBody_ok env params rows hp ha hf)
  rw [hq]
  show execCalls (Event.fetchCall (starArgs (normalizeParams params)) :: _)
    = _
  rw [execCalls_fetchCall, execCalls_logEv]

/-- C6 (counterexample): a call of `q` with mapping parameters whose
timeout arises during pool obtainment — before the normalization line has
run — executes the statement on the fallback connection with the
un-normalized mapping star-unpacked, i.e. with the keys ("days", "tag"),
not the values (7, "X"): the mapping is not always converted to its values
before execution. -/
theorem map_params_unnormalized_counterexample :
    execCalls (qRun (QEnv.mk (.error .timeout) (.ok ()) (.ok []) 0 false
        (.ok ()) (.ok []) 0) "SELECT"
        (Params.map [("days", .int 7), ("tag", .str ("X"))])).2 =
      [[Value.str ("days"), Value.str ("tag")]]
    ∧ [[Value.str ("days"), Value.str ("tag")]] ≠
      [[Value.int 7, Value.str ("X")]] := by
  constructor
  · decide
  · decide

/-- C6 (amended): whenever the pool is obtained successfully — so the
normalization line is reached — a mapping `params` of `q` / `execute_query`
is converted to the positional sequence of its values, in the mapping's
value order, before any execution (pooled or fallback); in particular a
successful pooled run of {"days": 7, "tag": "X"} passes exactly (7, "X")
to execution. -/
theorem map_params_normalized_before_execution (env : QEnv) (sql : String)
    (pairs : List (String × Value)) (hpool : env.poolRes = .ok ()) :
    (∀ args ∈ execCalls (qRun env sql (Params.map pairs)).2,
      args = pairs.map Prod.snd)
    ∧ (∀ args ∈ execCalls (executeQueryRun env sql (Params.map pairs)).2,
      args = pairs.map Prod.snd)
    ∧ (env.acquireRes = .ok () → ∀ rows, env.fetchRes = .ok rows →
        execCalls (qRun env sql (Params.map pairs)).2 =
            [pairs.map Prod.snd]
        ∧ execCalls (executeQueryRun env sql (Params.map pairs)).2 =
            [pairs.map Prod.snd]) := by
  have hstar : starArgs (normalizeParams (Params.map pairs)) =
      pairs.map Prod.snd := by
    simp [normalizeParams, starArgs]
  refine ⟨fun args h => ?_, fun args h => ?_, fun ha rows hf => ?_⟩
  · rw [← hstar]
    exact qRun_execCalls_poolOk env sql (Params.map pairs) hpool args h
  · rw [← hstar]
    exact executeQueryRun_execCalls_poolOk env sql (Params.map pairs)
      hpool args h
  · rw [← hstar]
    exact ⟨qRun_execCalls_allOk env sql (Params.map pairs) rows hpool ha hf,
      executeQueryRun_execCalls_allOk env sql (Params.map pairs) rows
        hpool ha hf⟩

/-- C6 (witness): a successful pooled `q` with params
{"days": 7, "tag": "X"} executes exactly once, with (7, "X"). -/
theorem map_params_normalized_witness :
    execCalls (qRun (QEnv.mk (.ok ()) (.ok ()) (.ok []) 0 false (.ok ())
        (.ok []) 0) "SELECT"
        (Params.map [("days", .int 7), ("tag", .str ("X"))])).2 =
      [[Value.int 7, Value.str ("X")]] :=
  ((map_params_normalized_before_execution
      (QEnv.mk (.ok ()) (.ok ()) (.ok []) 0 false (.ok ()) (.ok []) 0)
      "SELECT" [("days", .int 7), ("tag", .str ("X"))] rfl).2.2
    rfl [] rfl).1

/-- C10: if the timeout arises during pool obtainment — before the
parameter-normalization step — the direct-connection fallback of `q` /
`execute_query` executes the statement with the mapping itself star-unpacked,
passing the mapping's keys, not its values, as the positional parameters. -/
theorem fallback_map_params_passes_keys (sql : String)
    (pairs : List (String × Value)) (ar : Except PyErr Unit)
    (fr : Except PyErr (List Row)) (el ed : Nat) (dbg : Bool)
    (rows : List Row) :
    execCalls (qRun (QEnv.mk (.error .timeout) ar fr el dbg (.ok ())
        (.ok rows) ed) sql (Params.map pairs)).2 =
      [pairs.map (fun kv => Value.str kv.fst)]
    ∧ execCalls (executeQueryRun (QEnv.mk (.error .timeout) ar fr el dbg
        (.ok ()) (.ok rows) ed) sql (Params.map pairs)).2 =
      [pairs.map (fun kv => Value.str kv.fst)] := by
  constructor
  · have hq := qRun_tryBody_timeout sql
      (qTryBody_poolErr (QEnv.mk (.error .timeout) ar fr el dbg (.ok ())
        (.ok rows) ed) (Params.map pairs) _ rfl)
    rw [hq]
    simp [qFallback, execCalls_append, execCalls, callArgs, starArgs]
  · have hq := executeQueryRun_tryBody_timeout sql
      (executeTryBody_poolErr (QEnv.mk (.error .timeout) ar fr el dbg
        (.ok ()) (.ok rows) ed) (Params.map pairs) _ rfl)
    rw [hq]
    simp [executeFallback, execCalls_append, execCalls, callArgs, starArgs]

theorem qRun_countSlow (env : QEnv) (sql : String) (params : Params) :
    countSlow (qRun env sql params).2 =
      (if pooledErr env = none ∧ env.elapsedMs > 1000 then 1 else 0) := by
  rcases hp : env.poolRes with e | ⟨⟩
  · have hpe : pooledErr env = some e := by simp [pooledErr, hp]
    rcases e with _ | c0
    · have hq := qRun_tryBody_timeout sql (qTryBody_poolErr env params _ hp)
      rw [hq]
      simp [countSlow_append, countSlow_cons, countSlow_nil,
        (qFallback_counts env (starArgs params)).2, hpe]
    · have hq := qRun_tryBody_other sql (qTryBody_poolErr env params _ hp)
      rw [hq]
      simp [countSlow_append, countSlow_cons, countSlow_nil, hpe]
  · rcases ha : env.acquireRes with e | ⟨⟩
    · have hpe : pooledErr env = some e := by simp [pooledErr, hp, ha]
      rcases e with _ | c0
      · have hq := qRun_tryBody_timeout sql
          (qTryBody_acquireErr env params _ hp ha)
        rw [hq]
        simp [countSlow_append, countSlow_cons, countSlow_nil,
          (qFallback_counts env (starArgs (normalizeParams params))).2, hpe]
      · have hq := qRun_tryBody_other sql
          (qTryBody_acquireErr env params _ hp ha)
        rw [hq]
        simp [countSlow_append, countSlow_cons, countSlow_nil, hpe]
    · rcases hf : env.fetchRes with e | rows
      · have hpe : pooledErr env = some e := by simp [pooledErr, hp, ha, hf]
        rcases e with _ | c0
        · have hq := qRun_tryBody_timeout sql
            (qTryBody_fetchErr env params _ hp ha hf)
          rw [hq]
          simp [countSlow_append, countSlow_cons, countSlow_nil,
            (qFallback_counts env
              (starArgs (normalizeParams params))).2, hpe]
        · have hq := qRun_tryBody_other sql
            (qTryBody_fetchErr env params _ hp ha hf)
          rw [hq]
          simp [countSlow_append, countSlow_cons, countSlow_nil, hpe]
      · have hpe : pooledErr env = none := by simp [pooledErr, hp, ha, hf]
        have hq := qRun_tryBody_ok sql (qTryBody_ok env params rows hp ha hf)
        rw [hq]
        show countSlow (Event.fetchCall _ :: _) = _
        rw [countSlow_cons, countSlow_logEv, hpe]
        simp

theorem executeQueryRun_countSlow (env : QEnv) (sql : String)
    (params : Params) :
    countSlow (executeQueryRun env sql params).2 =
      (if pooledErr env = none ∧ env.elapsedMs > 1000 then 1 else 0) := by
  rcases hp : env.poolRes with e | ⟨⟩
  · have hpe : pooledErr env = some e := by simp [pooledErr, hp]
    rcases e with _ | c0
    · have hq := executeQueryRun_tryBody_timeout sql
        (executeTryBody_poolErr env params _ hp)
      rw [hq]
      simp [countSlow_append, countSlow_cons, countSlow_nil,
        (executeFallback_counts env (starArgs params)).2, hpe]
    · have hq := executeQueryRun_tryBody_other sql
        (executeTryBody_poolErr env params _ hp)
      rw [hq]
      simp [countSlow_append, countSlow_cons, countSlow_nil, hpe]
  · rcases ha : env.acquireRes with e | ⟨⟩
    · have hpe : pooledErr env = some e := by simp [pooledErr, hp, ha]
      rcases e with _ | c0
      · have hq := executeQueryRun_tryBody_timeout sql
          (executeTryBody_acquireErr env params _ hp ha)
        rw [hq]
        simp [countSlow_append, countSlow_cons, countSlow_nil,
          (executeFallback_counts env
            (starArgs (normalizeParams params))).2, hpe]
      · have hq := executeQueryRun_tryBody_other sql
          (executeTryBody_acquireErr env params _ hp ha)
        rw [hq]
        simp [countSlow_append, countSlow_cons, countSlow_nil, hpe]
    · rcases hf : env.fetchRes with e | rows
      · have hpe : pooledErr env = some e := by simp [pooledErr, hp, ha, hf]
        rcases e with _ | c0
        · have hq := executeQueryRun_tryBody_timeout sql
            (executeTryBody_fetchErr env params _ hp ha hf)
          rw [hq]
          simp [countSlow_append, countSlow_cons, countSlow_nil,
            (executeFallback_counts env
              (starArgs (normalizeParams params))).2, hpe]
        · have hq := executeQueryRun_tryBody_other sql
            (executeTryBody_fetchErr env params _ hp ha hf)
          rw [hq]
          simp [countSlow_append, countSlow_cons, countSlow_nil, hpe]
      · have hpe : pooledErr env = none := by simp [pooledErr, hp, ha, hf]
        have hq := executeQueryRun_tryBody_ok sql
          (executeTryBody_ok env params rows hp ha hf)
        rw [hq]
        show countSlow (Event.fetchCall _ :: _) = _
        rw [countSlow_cons, countSlow_logEv, hpe]
        simp

theorem elapsed_not_behavioral (pr ar cr : Except PyErr Unit)
    (fr dr : Except PyErr (List Row)) (el1 el2 ed : Nat) (dbg : Bool)
    (sql : String) (params : Params) :
    (qRun ⟨pr, ar, fr, el1, dbg, cr, dr, ed⟩ sql params).1 =
      (qRun ⟨pr, ar, fr, el2, dbg, cr, dr, ed⟩ sql params).1
    ∧ (executeQueryRun ⟨pr, ar, fr, el1, dbg, cr, dr, ed⟩ sql params).1 =
      (executeQueryRun ⟨pr, ar, fr, el2, dbg, cr, dr, ed⟩ sql params).1 := by
  rcases pr with e | ⟨⟩
  · rcases e with _ | c0 <;> exact ⟨rfl, rfl⟩
  · rcases ar with e | ⟨⟩
    · rcases e with _ | c0 <;> exact ⟨rfl, rfl⟩
    · rcases fr with e | rows
      · rcases e with _ | c0 <;> exact ⟨rfl, rfl⟩
      · exact ⟨rfl, rfl⟩

/-- C7 (counterexample): a call of `q` that enters the direct-connection
fallback after an execution-phase timeout and completes only after
2.5 seconds (elapsedDirectMs = 2500 > 1000) emits no slow-query warning at
all, so an execution taking over 1 second does not always produce exactly
one slow-query entry. -/
theorem slow_fallback_no_warning_counterexample :
    countSlow (qRun (QEnv.mk (.ok ()) (.ok ()) (.error .timeout) 2500 false
        (.ok ()) (.ok []) 2500) "SELECT" (Params.pos [])).2 = 0
    ∧ (2500 : Nat) > 1000 := by
  constructor
  · decide
  · decide

/-- C7 (amended): a slow-query warning is emitted by `q` / `execute_query`
iff the pooled attempt succeeds and its measured elapsed time exceeds 1
second, and then exactly once; failing runs and runs that enter the
direct-connection fallback emit none; the elapsed measurement has no effect
on the returned outcome. -/
theorem slow_warning_characterization (env : QEnv) (sql : String)
    (params : Params) :
    countSlow (qRun env sql params).2 =
      (if pooledErr env = none ∧ env.elapsedMs > 1000 then 1 else 0)
    ∧ countSlow (executeQueryRun env sql params).2 =
      (if pooledErr env = none ∧ env.elapsedMs > 1000 then 1 else 0)
    ∧ (∀ a b : Nat,
        (qRun { env with elapsedMs := a } sql params).1 =
          (qRun { env with elapsedMs := b } sql params).1
        ∧ (executeQueryRun { env with elapsedMs := a } sql params).1 =
          (executeQueryRun { env with elapsedMs := b } sql params).1) := by
  refine ⟨qRun_countSlow env sql params,
    executeQueryRun_countSlow env sql params, fun a b => ?_⟩
  obtain ⟨pr, ar, fr, el, dbg, cr, dr, ed⟩ := env
  exact elapsed_not_behavioral pr ar cr fr dr a b ed dbg sql params

/-- C8: without a precomputed page_info, the pagination component displays
the range ((current_page - 1) * page_size + 1) through
min(current_page * page_size, total_items) of total_items; page 2 of 144
items at 20 per page shows "21-40 of 144", and page 8 caps at
"141-144 of 144", not "141-160 of 144". -/
theorem pagination_display_range :
    (∀ p s : Int, pageStart p s = (p - 1) * s + 1)
    ∧ (∀ p s t : Int, pageEnd p s t = min (p * s) t)
    ∧ displayInfo 2 20 144 = "Showing 21-40 of 144"
    ∧ displayInfo 8 20 144 = "Showing 141-144 of 144"
    ∧ displayInfo 8 20 144 ≠ "Showing 141-160 of 144" := by
  refine ⟨fun p s => rfl, fun p s t => ?_, by decide, by decide, by decide⟩
  unfold pageEnd
  rcases lt_or_ge t (p * s) with h | h
  · rw [if_pos h, min_eq_right h.le]
  · rw [if_neg (not_lt.mpr h), min_eq_left h]

/-- C9: for any number of tasks concurrently racing through `get_pool` from
a fresh process state, in every reachable interleaving at most one pool
construction has completed; every caller that has returned received exactly
the constructed pool (all returns agree); whenever some caller has not yet
returned, the schedule can advance (no caller is lost waiting); and every
step strictly decreases a finite measure, so every maximal interleaving
terminates with all callers holding the single pool. -/
theorem getPool_race_exactly_one_pool (n : Nat) (s : Race.State n)
    (hreach : Race.Reachable n s) :
    s.createCount ≤ 1
    ∧ (∀ i p, s.pc i = Race.PC.ret p → s.pool = some p)
    ∧ (∀ i j p q, s.pc i = Race.PC.ret p → s.pc j = Race.PC.ret q → p = q)
    ∧ (∀ i, (∀ p, s.pc i ≠ Race.PC.ret p) → ∃ t, Race.Step s t)
    ∧ (∀ t, Race.Step s t → Race.rankSum t < Race.rankSum s) := by
  have hinv := Race.inv_reachable hreach
  refine ⟨?_, hinv.retPool, ?_, fun i hni => Race.progress hreach i hni,
    fun t hst => Race.step_rankSum_lt hst⟩
  · cases hpool : s.pool with
    | none =>
      rw [hinv.noneCount hpool]
      exact Nat.zero_le 1
    | some p =>
      rw [(hinv.someCount p hpool).1]
  · intro i j p q hi hj
    have h1 := hinv.retPool i p hi
    have h2 := hinv.retPool j q hj
    rw [h1] at h2
    exact Option.some.inj h2

/-- C9 (witness): two racing callers start from the fresh state; no pool
has been built yet, and the race can take a step. -/
theorem getPool_race_exactly_one_pool_witness :
    (Race.init 2).createCount ≤ 1
    ∧ ∃ t, Race.Step (Race.init 2) t :=
  ⟨(getPool_race_exactly_one_pool 2 (Race.init 2)
      Relation.ReflTransGen.refl).1,
   (getPool_race_exactly_one_pool 2 (Race.init 2)
      Relation.ReflTransGen.refl).2.2.2.1 0
     (fun p h => Race.PC.noConfusion h)⟩

end KsysDb

